import Mathlib

/-!
Verification of the GPCP One-Degree Daily (1DD) precipitation file codec.

Shallow embedding of the repository's codec modules:
* `src/gpcp/onedd.py` — packaged reader (`read_onedd_headers`, `read_day`,
  `OneDegreeReader` with `reading`/`__getitem__`/`__iter__`/`days`/`close`);
* `src/onedd.py` — standalone variant (`OneDegreeDay` carrying a date,
  `coordinate_iterator`);
* `src/gpcp.py` — older standalone variant (noted where it differs).

The byte stream is modelled as a list of characters (Python 2 `str` bytes)
together with a cursor, a closed flag and a trace of seek/read events, so
that offset and framing properties are stated over the recorded trace.
Decoded 32-bit big-endian words are modelled as naturals; the sentinel
masking of `numpy.ma.masked_values` is modelled over exact rationals.
-/

namespace Gpcp

/-! ### Constants (`src/gpcp/onedd.py` lines 23–34, same values in the other files) -/

def HEADER_SIZE : ℕ := 1440

def REAL_SIZE : ℕ := 4

def MEASUREMENTS_PER_DAY : ℕ := 360 * 180

def DAY_SIZE : ℕ := MEASUREMENTS_PER_DAY * REAL_SIZE

/-! ### Errors raised by the Python code

`key` = `KeyError`, `index` = `IndexError`, `value` = `ValueError`,
`io` = `IOError`, `closedFile` = `ValueError` on a closed file object
(kept distinct so closed-resource failures are distinguishable),
`structShort` = `struct.error` from `struct.unpack` on a short read. -/

inductive Err where
  | key
  | index
  | value
  | io
  | closedFile
  | structShort
deriving DecidableEq, Repr

deriving instance DecidableEq for Except

/-- Trace events recorded by the modelled file object: each `fp.seek`
and `fp.read` call with its argument. -/
inductive Ev where
  | seek (n : ℕ)
  | read (n : ℕ)
deriving DecidableEq, Repr

/-- Model of a Python 2 file object: immutable contents, a cursor,
a closed flag, and the trace of stream operations performed so far. -/
structure FState where
  data : List Char
  pos : ℕ
  closed : Bool
  trace : List Ev
deriving DecidableEq, Repr

/-- `fp.seek(n)`: raises `ValueError` on a closed file, otherwise moves
the cursor. -/
def pySeek (s : FState) (n : ℕ) : Except Err Unit × FState :=
  if s.closed then (.error .closedFile, s)
  else (.ok (), { s with pos := n, trace := s.trace ++ [.seek n] })

/-- `fp.read(n)`: raises `ValueError` on a closed file, otherwise returns
up to `n` bytes from the cursor and advances it by the number returned. -/
def pyRead (s : FState) (n : ℕ) : Except Err (List Char) × FState :=
  if s.closed then (.error .closedFile, s)
  else
    (.ok ((s.data.drop s.pos).take n),
      { s with pos := s.pos + ((s.data.drop s.pos).take n).length,
               trace := s.trace ++ [.read n] })

/-- `fp.close()` (`OneDegreeReader.close` delegates to this). -/
def close (s : FState) : FState := { s with closed := true }

/-! ### Big-endian 32-bit decoding (`struct.unpack(">" + "f"*N, ...)`)

Each 4-byte group is decoded most-significant byte first.  We keep the
32-bit pattern as a natural number; IEEE-754 value semantics is only
needed for the sentinel masking, which is modelled separately over ℚ. -/

def toWords : List ℕ → List ℕ
  | b0 :: b1 :: b2 :: b3 :: rest =>
      (((b0 * 256 + b1) * 256 + b2) * 256 + b3) :: toWords rest
  | [] => []
  | [_] => []
  | [_, _] => []
  | [_, _, _] => []

/-! ### Python string helpers used by the header code -/

/-- Python `str` whitespace (as stripped by `str.rstrip()`). -/
def isPySpace (c : Char) : Bool :=
  c == ' ' || c == '\t' || c == '\n' || c == '\r' || c == '\x0b' || c == '\x0c'

/-- Python `str.rstrip()`: drop trailing whitespace. -/
def rstrip (l : List Char) : List Char :=
  (l.reverse.dropWhile isPySpace).reverse

def digitsToNat (ds : List Char) : ℕ :=
  ds.foldl (fun a c => a * 10 + (c.toNat - 48)) 0

/-- Python `str.split(sep)` for a one-character separator. -/
def splitOnChar (sep : Char) : List Char → List (List Char)
  | [] => [[]]
  | c :: cs =>
      match splitOnChar sep cs with
      | [] => [[]]
      | h :: t => if c = sep then [] :: h :: t else (c :: h) :: t

/-- Python `int(str)`: optional surrounding whitespace, optional sign,
one or more decimal digits; anything else raises `ValueError` (`none`). -/
def pyInt (s : List Char) : Option ℤ :=
  let cs := ((s.dropWhile isPySpace).reverse.dropWhile isPySpace).reverse
  match cs with
  | [] => none
  | '-' :: ds =>
      if ds ≠ [] ∧ ds.all Char.isDigit then some (-(digitsToNat ds : ℤ)) else none
  | '+' :: ds =>
      if ds ≠ [] ∧ ds.all Char.isDigit then some (digitsToNat ds : ℤ) else none
  | ds =>
      if ds.all Char.isDigit then some (digitsToNat ds : ℤ) else none

/-- Lookup in the dictionary built by Python `dict(pairs)`: the *last*
binding of a key wins. -/
def dictGet (hs : List (String × String)) (k : String) : Option String :=
  match hs with
  | [] => none
  | (k', v) :: t =>
      match dictGet t k with
      | some r => some r
      | none => if k' = k then some v else none

/-! ### Header tokenization

`GPCP_HEADER_PATTERN = r'(\w+)=(.*?) ?(?=(\w+=|$))'` scanned with
`re.findall` (`src/gpcp/onedd.py` line 24; identical in the other files).
The model implements the regex's deterministic behaviour:
* `\w+=` matches iff the maximal word-character run is non-empty and is
  immediately followed by `=` (any shorter run would abut a word
  character, so backtracking cannot succeed otherwise);
* `(.*?) ?(?=...)` tries value lengths shortest-first, `.` never matches
  a newline, and at each length the greedy ` ?` first tries to consume
  one space before testing the lookahead;
* the lookahead `(\w+=|$)` succeeds on a word run followed by `=`, at
  end of input, or before a single trailing newline (Python `$`). -/

def isWordChar (c : Char) : Bool := c.isAlphanum || c == '_'

def lookAh (cs : List Char) : Bool :=
  (!(cs.takeWhile isWordChar).isEmpty && ((cs.dropWhile isWordChar).head? == some '='))
    || cs.isEmpty || cs == ['\n']

def findValue : List Char → Option (List Char × ℕ)
  | [] => if lookAh [] then some ([], 0) else none
  | c :: cs =>
      if c == ' ' && lookAh cs then some ([], 1)
      else if lookAh (c :: cs) then some ([], 0)
      else if c != '\n' then (findValue cs).map (fun p => (c :: p.1, p.2 + 1))
      else none

/-- Try to match the header pattern at the start of `cs`; on success
return the two captured groups and the total number of characters
consumed by the match (`\w+` is the maximal word run `takeWhile`, which
must be non-empty and followed directly by `=`). -/
def matchAt (cs : List Char) : Option ((List Char × List Char) × ℕ) :=
  if (cs.takeWhile isWordChar).isEmpty then none
  else
    match cs.dropWhile isWordChar with
    | c :: r₂ =>
        if c = '=' then
          (findValue r₂).map
            (fun p => ((cs.takeWhile isWordChar, p.1),
              (cs.takeWhile isWordChar).length + 1 + p.2))
        else none
    | [] => none

/-- `re.findall` scan: try a match at each position, consuming the whole
match on success (every match here is at least two characters long) and
advancing one character on failure; the scan stops at the end of the
input (where `matchAt [] = none` holds by definition, so the empty case
is written directly). -/
def findAllAux : ℕ → List Char → List (List Char × List Char)
  | 0, _ => []
  | _ + 1, [] => []
  | fuel + 1, c :: cs' =>
      match matchAt (c :: cs') with
      | some (kv, n) => kv :: findAllAux fuel ((c :: cs').drop n)
      | none => findAllAux fuel cs'

def findAll (cs : List Char) : List (List Char × List Char) :=
  findAllAux (cs.length + 1) cs

/-- `read_onedd_headers` (`src/gpcp/onedd.py` lines 37–56): seek to 0,
read the 1,440-byte header block, strip trailing whitespace, extract the
`key=value` pairs, and raise `IOError` when none are found.
(The `src/onedd.py` variant, lines 28–43, omits the empty check.) -/
def read_onedd_headers (s : FState) : Except Err (List (String × String)) × FState :=
  match pySeek s 0 with
  | (.error e, s₁) => (.error e, s₁)
  | (.ok _, s₁) =>
      match pyRead s₁ HEADER_SIZE with
      | (.error e, s₂) => (.error e, s₂)
      | (.ok bs, s₂) =>
          let hs := findAll (rstrip bs)
          if hs.isEmpty then (.error .io, s₂)
          else (.ok (hs.map (fun p => (String.mk p.1, String.mk p.2))), s₂)

/-! ### The reader -/

/-- `OneDegreeReader`'s mutable attributes: the header dictionary and the
lazily-cached day count `_days`. -/
structure Reader where
  headers : List (String × String)
  _days : Option ℤ
deriving DecidableEq, Repr

/-- `int(self.headers['days'].split('-')[1])` — the uncached computation
behind the `days` property. -/
def daysOf (hs : List (String × String)) : Except Err ℤ :=
  match dictGet hs "days" with
  | none => .error .key
  | some v =>
      match (splitOnChar '-' v.toList).get? 1 with
      | none => .error .index
      | some t =>
          match pyInt t with
          | none => .error .value
          | some d => .ok d

/-- The `days` property (`src/gpcp/onedd.py` lines 131–138): return the
cached count, computing and caching it on first access. -/
def daysCached (r : Reader) : Except Err ℤ × Reader :=
  match r._days with
  | some d => (.ok d, r)
  | none =>
      match daysOf r.headers with
      | .error e => (.error e, r)
      | .ok d => (.ok d, { r with _days := some d })

/-- The `year` property: `int(self.headers['year'])`. -/
def yearOf (hs : List (String × String)) : Except Err ℤ :=
  match dictGet hs "year" with
  | none => .error .key
  | some v =>
      match pyInt v.toList with
      | none => .error .value
      | some y => .ok y

/-- The `month` property: `int(self.headers['month'])`. -/
def monthOf (hs : List (String × String)) : Except Err ℤ :=
  match dictGet hs "month" with
  | none => .error .key
  | some v =>
      match pyInt v.toList with
      | none => .error .value
      | some m => .ok m

/-- `read_day` (`src/gpcp/onedd.py` lines 59–74, `src/onedd.py` lines
45–55): read `DAY_SIZE` bytes from the current position and unpack them
as `MEASUREMENTS_PER_DAY` big-endian 32-bit reals; `struct.unpack`
raises on a short read.  (The packaged variant reshapes the result to
180×360 in row-major order; the flat scan-order list is kept here.) -/
def read_day (s : FState) : Except Err (List ℕ) × FState :=
  match pyRead s DAY_SIZE with
  | (.error e, s₁) => (.error e, s₁)
  | (.ok bs, s₁) =>
      if bs.length = DAY_SIZE then (.ok (toWords (bs.map Char.toNat)), s₁)
      else (.error .structShort, s₁)

/-- `OneDegreeReader.__getitem__` (`src/gpcp/onedd.py` lines 104–117):
bounds check (`key >= 0` short-circuits before `self.days` is touched),
seek to `HEADER_SIZE + DAY_SIZE * key`, then `self.reading()` which
reads one record.  Result is the decoded word list (sentinel masking is
value-level, modelled by `masked_values` below). -/
def getItem (r : Reader) (s : FState) (key : ℤ) : Except Err (List ℕ) × Reader × FState :=
  if key < 0 then (.error .index, r, s)
  else
    match daysCached r with
    | (.error e, r₁) => (.error e, r₁, s)
    | (.ok d, r₁) =>
        if key < d then
          match pySeek s (HEADER_SIZE + DAY_SIZE * key.toNat) with
          | (.error e, s₁) => (.error e, r₁, s₁)
          | (.ok _, s₁) =>
              match read_day s₁ with
              | (.error e, s₂) => (.error e, r₁, s₂)
              | (.ok w, s₂) => (.ok w, r₁, s₂)
        else (.error .index, r₁, s)

def iterLoop : ℕ → FState → Except Err (List (List ℕ)) × FState
  | 0, s => (.ok [], s)
  | n + 1, s =>
      match read_day s with
      | (.error e, s₁) => (.error e, s₁)
      | (.ok w, s₁) =>
          match iterLoop n s₁ with
          | (.error e, s₂) => (.error e, s₂)
          | (.ok ws, s₂) => (.ok (w :: ws), s₂)

/-- `OneDegreeReader.__iter__` (`src/gpcp/onedd.py` lines 119–129): seek
once to `HEADER_SIZE`, then read `self.days` consecutive records.  The
Python generator is modelled strictly as the list of yielded days. -/
def iterate (r : Reader) (s : FState) : Except Err (List (List ℕ)) × Reader × FState :=
  match pySeek s HEADER_SIZE with
  | (.error e, s₁) => (.error e, r, s₁)
  | (.ok _, s₁) =>
      match daysCached r with
      | (.error e, r₁) => (.error e, r₁, s₁)
      | (.ok d, r₁) =>
          let (res, s₂) := iterLoop d.toNat s₁
          (res, r₁, s₂)

/-- The word list of day record `i`: the `DAY_SIZE` bytes at absolute
offset `HEADER_SIZE + DAY_SIZE * i`, decoded big-endian. -/
def recordWords (data : List Char) (i : ℕ) : List ℕ :=
  toWords (((data.drop (HEADER_SIZE + DAY_SIZE * i)).take DAY_SIZE).map Char.toNat)

/-! ### Sentinel masking (`OneDegreeReader.reading`, `src/gpcp/onedd.py`
lines 97–102) -/

/-- `numpy.ma.masked_values` default absolute tolerance. -/
def ATOL : ℚ := 1 / 100000000

/-- `numpy.ma.masked_values` default relative tolerance. -/
def RTOL : ℚ := 1 / 100000

/-- Modelled from numpy: `ma.masked_values(x, value)` masks an element
`x` exactly when `|x - value| ≤ atol + rtol * |value|` (floating
arithmetic modelled over exact rationals). -/
def masked_values (missing x : ℚ) : Option ℚ :=
  if |x - missing| ≤ ATOL + RTOL * |missing| then none else some x

/-- `OneDegreeReader.reading`, value level: apply the sentinel mask of
`ma.masked_values(readings, self.missing_value)` to each decoded value. -/
def reading (missing : ℚ) (raw : List ℚ) : List (Option ℚ) :=
  raw.map (masked_values missing)

/-! ### The `src/onedd.py` variant: days carry dates, coordinates -/

/-- `OneDegreeDay` (`src/onedd.py` lines 57–81): 1-based day-of-month,
the date `datetime(reader.year, reader.month, day)`, and the raw decoded
readings. -/
structure ODay where
  day : ℤ
  date : ℤ × ℤ × ℤ
  readings : List ℕ
deriving DecidableEq, Repr

def isLeap (y : ℤ) : Bool :=
  y % 4 == 0 && (y % 100 != 0 || y % 400 == 0)

def daysInMonth (y m : ℤ) : ℤ :=
  if m = 2 then (if isLeap y then 29 else 28)
  else if m = 4 ∨ m = 6 ∨ m = 9 ∨ m = 11 then 30
  else 31

def datetimeValidB (y m d : ℤ) : Bool :=
  1 ≤ y && y ≤ 9999 && 1 ≤ m && m ≤ 12 && 1 ≤ d && d ≤ daysInMonth y m

/-- Modelled from Python's `datetime.datetime(year, month, day)`
constructor: returns the date triple for a valid proleptic-Gregorian
date in years 1–9999 and raises `ValueError` otherwise. -/
def pyDatetime (y m d : ℤ) : Except Err (ℤ × ℤ × ℤ) :=
  if datetimeValidB y m d then .ok (y, m, d) else .error .value

/-- `OneDegreeReader.__getitem__` of `src/onedd.py` (lines 98–111)
composed with `OneDegreeDay.from_file`: bounds check, seek, read the
record, then build the day object whose construction computes
`datetime(reader.year, reader.month, day)`. -/
def getItemDay (r : Reader) (s : FState) (key : ℤ) : Except Err ODay × Reader × FState :=
  if key < 0 then (.error .index, r, s)
  else
    match daysCached r with
    | (.error e, r₁) => (.error e, r₁, s)
    | (.ok d, r₁) =>
        if key < d then
          match pySeek s (HEADER_SIZE + DAY_SIZE * key.toNat) with
          | (.error e, s₁) => (.error e, r₁, s₁)
          | (.ok _, s₁) =>
              match read_day s₁ with
              | (.error e, s₂) => (.error e, r₁, s₂)
              | (.ok w, s₂) =>
                  match yearOf r₁.headers with
                  | .error e => (.error e, r₁, s₂)
                  | .ok y =>
                      match monthOf r₁.headers with
                      | .error e => (.error e, r₁, s₂)
                      | .ok m =>
                          match pyDatetime y m (key + 1) with
                          | .error e => (.error e, r₁, s₂)
                          | .ok dt => (.ok ⟨key + 1, dt, w⟩, r₁, s₂)
        else (.error .index, r₁, s)

/-- The body of `coordinate_iterator_generator` (`src/onedd.py` lines
169–173): `(89.5 - lat, 0.5 + lon)` for `lat` in `range(180)`, `lon` in
`range(360)`, in that nesting order. -/
def coordGen : List (ℚ × ℚ) :=
  (List.range 180).flatMap
    (fun lat => (List.range 360).map
      (fun lon => ((179 : ℚ) / 2 - (lat : ℚ), (1 : ℚ) / 2 + (lon : ℚ))))

/-- `OneDegreeReader.coordinate_iterator` (`src/onedd.py` lines
158–173): the method has access to `self.headers` but — per its `TODO`
comment — never consults them; it unconditionally returns the fixed
generator. -/
def coordinate_iterator (hs : List (String × String)) : Except Err (List (ℚ × ℚ)) :=
  .ok coordGen

end Gpcp

namespace Gpcp

/-! ### Helper lemmas -/

theorem toWords_length : ∀ l : List ℕ, (toWords l).length = l.length / 4
  | [] => by simp [toWords]
  | [_] => by simp [toWords]
  | [_, _] => by simp [toWords]
  | [_, _, _] => by simp [toWords]
  | _ :: _ :: _ :: _ :: rest => by
      simp only [toWords, List.length_cons, toWords_length rest]
      omega

theorem flatMap_range_map {α : Type} (g : ℕ → ℕ → α) (m n : ℕ) (hn : 0 < n) :
    (List.range m).flatMap (fun r => (List.range n).map (fun c => g r c))
      = (List.range (m * n)).map (fun i => g (i / n) (i % n)) := by
  induction m with
  | zero => simp
  | succ m ih =>
      rw [List.range_succ, List.flatMap_append, ih, Nat.succ_mul, List.range_add,
        List.map_append, List.map_map]
      congr 1
      · simp only [List.flatMap_cons, List.flatMap_nil, List.append_nil]
        apply List.map_congr_left
        intro c hc
        have hcn : c < n := List.mem_range.mp hc
        have h1 : (m * n + c) / n = m := by
          rw [Nat.mul_comm, Nat.mul_add_div hn, Nat.div_eq_of_lt hcn]
          omega
        have h2 : (m * n + c) % n = c := by
          rw [Nat.mul_comm, Nat.mul_add_mod, Nat.mod_eq_of_lt hcn]
        simp [Function.comp, h1, h2]

/-- Row-major cell `i` of the fixed coordinate grid. -/
def coordF (i : ℕ) : ℚ × ℚ :=
  ((179 : ℚ) / 2 - (i / 360 : ℕ), (1 : ℚ) / 2 + (i % 360 : ℕ))

set_option maxRecDepth 10000 in
theorem coordGen_eq_map : coordGen = (List.range 64800).map coordF := by
  have h := flatMap_range_map
    (fun r c => ((179 : ℚ) / 2 - (r : ℚ), (1 : ℚ) / 2 + (c : ℚ))) 180 360 (by norm_num)
  rw [show (180 * 360 : ℕ) = 64800 by norm_num] at h
  have h2 : (List.range 64800).map
      (fun i => ((179 : ℚ) / 2 - ((i / 360 : ℕ) : ℚ), (1 : ℚ) / 2 + ((i % 360 : ℕ) : ℚ)))
      = (List.range 64800).map coordF :=
    List.map_congr_left (fun i _ => rfl)
  unfold coordGen
  exact h.trans h2

theorem coordF_injective : Function.Injective coordF := by
  intro i j h
  simp only [coordF, Prod.mk.injEq] at h
  obtain ⟨h1, h2⟩ := h
  have e1 : i / 360 = j / 360 := Nat.cast_inj.mp (sub_right_inj.mp h1)
  have e2 : i % 360 = j % 360 := Nat.cast_inj.mp (add_right_inj _ |>.mp h2)
  omega

end Gpcp

namespace Gpcp

/-! ### C4 — the coordinate grid -/

/-- C4: `coordinates()` yields exactly 64,800 pairwise-distinct
(latitude, longitude) pairs in strict row-major order matching decode
order: the pair at scan position `r·360 + c` is `(89.5 − r, 0.5 + c)`,
so latitudes range over 89.5 … −89.5 and longitudes over 0.5 … 359.5. -/
theorem c4_coordinate_grid :
    coordGen.length = 64800 ∧ coordGen.Nodup ∧
      ∀ r c : ℕ, r < 180 → c < 360 →
        coordGen[r * 360 + c]? = some ((179 : ℚ) / 2 - (r : ℚ), (1 : ℚ) / 2 + (c : ℚ)) := by
  refine ⟨?_, ?_, ?_⟩
  · rw [coordGen_eq_map]
    simp
  · rw [coordGen_eq_map]
    exact (List.nodup_range 64800).map coordF_injective
  · intro r c hr hc
    have hlt : r * 360 + c < 64800 := by omega
    rw [coordGen_eq_map, List.getElem?_map, List.getElem?_range hlt]
    have hd : (r * 360 + c) / 360 = r := by omega
    have hm : (r * 360 + c) % 360 = c := by omega
    simp [coordF, hd, hm]

theorem c4_coordinate_grid_witness :
    (0 : ℕ) < 180 ∧ (17 : ℕ) < 360 ∧
      coordGen[0 * 360 + 17]? = some ((179 : ℚ) / 2 - ((0 : ℕ) : ℚ), (1 : ℚ) / 2 + ((17 : ℕ) : ℚ)) :=
  ⟨by norm_num, by norm_num, c4_coordinate_grid.2.2 0 17 (by norm_num) (by norm_num)⟩

/-! ### C5 — no box-center validation happens -/

/-- A header whose box-center fields do not match the fixed
north-to-south, west-to-east scan order (first box center at 0.5N
instead of 89.5N). -/
def badHeaders : List (String × String) :=
  [("1st_box_center", "(0.5N,0.5E)"), ("2nd_box_center", "(0.5N,1.5E)"),
   ("last_box_center", "(0.5S,359.5E)")]

/-- C5 counterexample: the claim says `coordinates()` fails with a
format error for every header whose box-center fields do not match the
fixed scan order.  On this mismatching header (its `1st_box_center` is
not the expected `(89.5N,0.5E)`), `coordinate_iterator` nevertheless
succeeds and yields the full fixed coordinate sequence — the code never
reads the box-center fields (`src/onedd.py` lines 158–173, where the
`TODO` comment records exactly this). -/
theorem c5_counterexample :
    dictGet badHeaders "1st_box_center" = some "(0.5N,0.5E)" ∧
      dictGet badHeaders "1st_box_center" ≠ some "(89.5N,0.5E)" ∧
      coordinate_iterator badHeaders = .ok coordGen := by
  refine ⟨by decide, by decide, rfl⟩

/-- C5 amended: `coordinates()` performs no validation of the header's
box-center fields; for every header — matching or not — it succeeds and
yields the fixed 64,800-element north-to-south, west-to-east sequence. -/
theorem c5_no_validation (hs : List (String × String)) :
    coordinate_iterator hs = .ok coordGen ∧ coordGen.length = 64800 := by
  refine ⟨rfl, ?_⟩
  rw [coordGen_eq_map]
  simp

/-! ### C1 — sentinel masking -/

/-- C1 counterexample: the claim says a reading is masked iff the raw
value is exactly equal to the sentinel.  With sentinel −99999.0 the raw
value −99998.5 is not equal to the sentinel, yet
`ma.masked_values` masks it, because its default comparison is the
tolerance test `|x − value| ≤ atol + rtol·|value|` (≈ 1.0 here), not
floating-point equality. -/
theorem c1_counterexample :
    reading (-99999) [(-199997 : ℚ) / 2] = [none] ∧
      ((-199997 : ℚ) / 2) ≠ (-99999 : ℚ) := by
  constructor
  · have : masked_values (-99999) ((-199997 : ℚ) / 2) = none := by
      unfold masked_values ATOL RTOL
      rw [if_pos]
      rw [abs_le, abs_of_neg (by norm_num : (-99999 : ℚ) < 0)]
      constructor <;> norm_num
    simp [reading, this]
  · norm_num

/-- C1 amended: a reading produced by the codec (`reading` =
`ma.masked_values(read_day(fp), missing_value)`) is the missing marker
iff the raw value is within the `masked_values` default tolerance
`atol + rtol·|missing_value|` of the sentinel; every reading outside
that tolerance carries its raw numeric value unchanged. -/
theorem c1_masking_tolerance (missing : ℚ) (raw : List ℚ) (i : ℕ) (h : i < raw.length) :
    ((reading missing raw)[i]? = some none ↔
        |raw[i] - missing| ≤ ATOL + RTOL * |missing|) ∧
      (¬ |raw[i] - missing| ≤ ATOL + RTOL * |missing| →
        (reading missing raw)[i]? = some (some raw[i])) := by
  have hg : (reading missing raw)[i]? = some (masked_values missing raw[i]) := by
    simp [reading, List.getElem?_eq_getElem, h]
  constructor
  · rw [hg]
    unfold masked_values
    split <;> simp_all
  · intro hn
    rw [hg]
    unfold masked_values
    rw [if_neg hn]

theorem c1_masking_tolerance_witness :
    (0 : ℕ) < [(5 : ℚ)].length ∧
      ((((reading (-99999) [(5 : ℚ)])[0]? = some none ↔
          |[(5 : ℚ)][0] - (-99999)| ≤ ATOL + RTOL * |(-99999 : ℚ)|)) ∧
        (¬ |[(5 : ℚ)][0] - (-99999)| ≤ ATOL + RTOL * |(-99999 : ℚ)| →
          (reading (-99999) [(5 : ℚ)])[0]? = some (some [(5 : ℚ)][0]))) :=
  ⟨by norm_num, c1_masking_tolerance (-99999) [(5 : ℚ)] 0 (by norm_num)⟩

end Gpcp

namespace Gpcp

/-! ### Stream-operation lemmas -/

theorem take_drop_length (data : List Char) (p n : ℕ) (h : p + n ≤ data.length) :
    ((data.drop p).take n).length = n := by
  simp only [List.length_take, List.length_drop]
  omega

theorem pySeek_ok (s : FState) (n : ℕ) (hc : s.closed = false) :
    pySeek s n = (.ok (), { s with pos := n, trace := s.trace ++ [.seek n] }) := by
  simp [pySeek, hc]

theorem pyRead_ok (s : FState) (n : ℕ) (hc : s.closed = false)
    (hl : s.pos + n ≤ s.data.length) :
    pyRead s n = (.ok ((s.data.drop s.pos).take n),
      { s with pos := s.pos + n, trace := s.trace ++ [.read n] }) := by
  unfold pyRead
  rw [if_neg (by simp [hc]), take_drop_length s.data s.pos n hl]

theorem read_day_ok (s : FState) (hc : s.closed = false)
    (hl : s.pos + DAY_SIZE ≤ s.data.length) :
    read_day s = (.ok (toWords (((s.data.drop s.pos).take DAY_SIZE).map Char.toNat)),
      { s with pos := s.pos + DAY_SIZE, trace := s.trace ++ [.read DAY_SIZE] }) := by
  have hlen : ((s.data.drop s.pos).take DAY_SIZE).length = DAY_SIZE :=
    take_drop_length s.data s.pos DAY_SIZE hl
  unfold read_day
  rw [pyRead_ok s DAY_SIZE hc hl]
  simp [hlen]

theorem daysCached_headers (r : Reader) : (daysCached r).2.headers = r.headers := by
  unfold daysCached
  cases hd : r._days with
  | some d => rfl
  | none =>
      cases hdo : daysOf r.headers with
      | error e => rfl
      | ok d => rfl

theorem daysCached_idem (r : Reader) (d : ℤ) (r' : Reader)
    (h : daysCached r = (.ok d, r')) : daysCached r' = (.ok d, r') := by
  unfold daysCached at h ⊢
  cases hd : r._days with
  | some d0 =>
      rw [hd] at h
      injection h with h1 h2
      injection h1 with h1
      subst h1
      subst h2
      rw [hd]
  | none =>
      rw [hd] at h
      cases hdo : daysOf r.headers with
      | error e =>
          rw [hdo] at h
          simp at h
      | ok d0 =>
          rw [hdo] at h
          injection h with h1 h2
          injection h1 with h1
          subst h1
          subst h2
          rfl

end Gpcp

namespace Gpcp

theorem getItem_ok (r : Reader) (s : FState) (key d : ℤ) (r' : Reader)
    (hc : s.closed = false) (hd : daysCached r = (.ok d, r'))
    (h0 : 0 ≤ key) (h1 : key < d)
    (hl : HEADER_SIZE + DAY_SIZE * (key.toNat + 1) ≤ s.data.length) :
    getItem r s key =
      (.ok (recordWords s.data key.toNat), r',
        { s with pos := HEADER_SIZE + DAY_SIZE * key.toNat + DAY_SIZE,
                 trace := s.trace ++
                   [.seek (HEADER_SIZE + DAY_SIZE * key.toNat), .read DAY_SIZE] }) := by
  have hseek := pySeek_ok s (HEADER_SIZE + DAY_SIZE * key.toNat) hc
  have hread := read_day_ok
    { s with pos := HEADER_SIZE + DAY_SIZE * key.toNat,
             trace := s.trace ++ [.seek (HEADER_SIZE + DAY_SIZE * key.toNat)] }
    hc
    (by
      show HEADER_SIZE + DAY_SIZE * key.toNat + DAY_SIZE ≤ s.data.length
      simp only [HEADER_SIZE, DAY_SIZE, MEASUREMENTS_PER_DAY, REAL_SIZE] at hl ⊢
      omega)
  unfold getItem
  rw [if_neg (not_lt.mpr h0), hd]
  simp only [hseek, hread]
  rw [if_pos h1]
  simp [recordWords, List.append_assoc]

end Gpcp

namespace Gpcp

/-! ### Concrete sample objects used by the witnesses -/

/-- Headers of the worked example: `year=1997 month=01 days=1-31
missing_value=-99999.00`. -/
def sampleHeaders : List (String × String) :=
  [("year", "1997"), ("month", "01"), ("days", "1-31"), ("missing_value", "-99999.00")]

/-- A freshly constructed reader over the sample headers (day count not
yet cached). -/
def r31 : Reader := ⟨sampleHeaders, none⟩

/-- The same reader after its day count has been computed and cached. -/
def r31c : Reader := ⟨sampleHeaders, some 31⟩

/-- Sample stream contents: a header block plus two day records' worth
of bytes (1440 + 2·259200 = 519840). -/
def sData : List Char := List.replicate 519840 'a'

/-- An open stream over the sample contents. -/
def sOpen : FState := ⟨sData, 0, false, []⟩

/-- A closed stream over the sample contents. -/
def sClosed : FState := ⟨sData, 0, true, []⟩

theorem daysCached_r31 : daysCached r31 = (.ok 31, r31c) := by decide

theorem sData_length : sData.length = 519840 := by
  show (List.replicate 519840 'a').length = 519840
  rw [List.length_replicate]

/-! ### C2 — get(index) seeks then reads one record -/

/-- C2: for every index with `0 ≤ index < day_count()`, `get(index)`
seeks the stream to exactly absolute byte offset `1440 + index·259200`
before reading, then reads exactly one record (259,200 bytes requested)
decoded as 64,800 big-endian 32-bit values.  The recorded operation
trace is exactly one seek to that offset followed by one read of
`DAY_SIZE` bytes. -/
theorem c2_get_seeks_then_reads (r r' : Reader) (s : FState) (key d : ℤ)
    (hc : s.closed = false) (hd : daysCached r = (.ok d, r'))
    (h0 : 0 ≤ key) (h1 : key < d)
    (hl : HEADER_SIZE + DAY_SIZE * (key.toNat + 1) ≤ s.data.length) :
    getItem r s key =
      (.ok (recordWords s.data key.toNat), r',
        { s with pos := HEADER_SIZE + DAY_SIZE * key.toNat + DAY_SIZE,
                 trace := s.trace ++
                   [.seek (HEADER_SIZE + DAY_SIZE * key.toNat), .read DAY_SIZE] })
      ∧ HEADER_SIZE + DAY_SIZE * key.toNat = 1440 + 259200 * key.toNat
      ∧ DAY_SIZE = 259200
      ∧ (recordWords s.data key.toNat).length = 64800 := by
  refine ⟨getItem_ok r s key d r' hc hd h0 h1 hl, by norm_num [HEADER_SIZE, DAY_SIZE,
    MEASUREMENTS_PER_DAY, REAL_SIZE], by norm_num [DAY_SIZE, MEASUREMENTS_PER_DAY, REAL_SIZE], ?_⟩
  unfold recordWords
  rw [toWords_length, List.length_map,
    take_drop_length s.data (HEADER_SIZE + DAY_SIZE * key.toNat) DAY_SIZE
      (by simp only [HEADER_SIZE, DAY_SIZE, MEASUREMENTS_PER_DAY, REAL_SIZE] at hl ⊢; omega)]
  norm_num [DAY_SIZE, MEASUREMENTS_PER_DAY, REAL_SIZE]

theorem c2_get_seeks_then_reads_witness :
    sOpen.closed = false ∧ (0 : ℤ) ≤ 0 ∧ (0 : ℤ) < 31 ∧
      HEADER_SIZE + DAY_SIZE * ((0 : ℤ).toNat + 1) ≤ sOpen.data.length ∧
      (getItem r31 sOpen 0).1 = .ok (recordWords sOpen.data (0 : ℤ).toNat) ∧
      (recordWords sOpen.data (0 : ℤ).toNat).length = 64800 := by
  have hl : HEADER_SIZE + DAY_SIZE * ((0 : ℤ).toNat + 1) ≤ sOpen.data.length := by
    show HEADER_SIZE + DAY_SIZE * ((0 : ℤ).toNat + 1) ≤ sData.length
    rw [sData_length]
    norm_num [HEADER_SIZE, DAY_SIZE, MEASUREMENTS_PER_DAY, REAL_SIZE]
  have h := c2_get_seeks_then_reads r31 r31c sOpen 0 31 rfl daysCached_r31
    (by norm_num) (by norm_num) hl
  exact ⟨rfl, by norm_num, by norm_num, hl, by rw [h.1], h.2.2.2⟩

/-! ### C6 — out-of-range indices -/

/-- C6: for every index outside `[0, day_count())` — negative or at
least the day count — `get(index)` fails with the range error
(`IndexError`) and the stream is completely unchanged (no seek, no read,
no position change): the bounds check precedes any stream operation. -/
theorem c6_range_error (r : Reader) (s : FState) (key : ℤ)
    (h : key < 0 ∨ ∃ d, (daysCached r).1 = .ok d ∧ d ≤ key) :
    (getItem r s key).1 = .error .index ∧ (getItem r s key).2.2 = s := by
  unfold getItem
  rcases h with hneg | ⟨d, hd, hle⟩
  · rw [if_pos hneg]
    exact ⟨rfl, rfl⟩
  · by_cases hneg : key < 0
    · rw [if_pos hneg]
      exact ⟨rfl, rfl⟩
    · rw [if_neg hneg]
      rcases hq : daysCached r with ⟨x, r₁⟩
      rw [hq] at hd
      simp only at hd
      subst hd
      simp only
      rw [if_neg (by omega)]
      exact ⟨rfl, rfl⟩

theorem c6_range_error_witness :
    ((-1 : ℤ) < 0 ∨ ∃ d, (daysCached r31).1 = .ok d ∧ d ≤ -1) ∧
      (getItem r31 sOpen (-1)).1 = .error .index ∧ (getItem r31 sOpen (-1)).2.2 = sOpen :=
  ⟨Or.inl (by norm_num), c6_range_error r31 sOpen (-1) (Or.inl (by norm_num))⟩

end Gpcp

namespace Gpcp

/-! ### C9 — behaviour after close -/

/-- C9 counterexample: the claim says that after `close()` *every*
further operation — including the header-derived accessor `day_count()`
— fails with a closed-resource error.  But the `days` property reads
only the in-memory header dictionary and cache (it takes no part of the
stream at all, which is why `daysCached` here is a function of the
reader alone), so on a reader whose stream has been closed it still
succeeds and returns 31. -/
theorem c9_counterexample :
    (close sOpen).closed = true ∧ daysCached r31 = (.ok 31, r31c) :=
  ⟨rfl, daysCached_r31⟩

/-- C9 amended: after `close()`, every operation that touches the
stream fails with the closed-resource error — `get` with an in-range
index and `iterate` both do — while the header-derived `days` accessor
still succeeds unchanged; the closed flag is one-way: only `close` sets
it and no seek or read ever changes it. -/
theorem c9_closed_behavior (r r' : Reader) (s : FState) (key d : ℤ)
    (hc : s.closed = true) (hd : daysCached r = (.ok d, r'))
    (h0 : 0 ≤ key) (h1 : key < d) :
    (getItem r s key).1 = .error .closedFile ∧
      (iterate r s).1 = .error .closedFile ∧
      daysCached r = (.ok d, r') ∧
      (close s).closed = true ∧
      (∀ t : FState, ∀ n : ℕ,
        (pySeek t n).2.closed = t.closed ∧ (pyRead t n).2.closed = t.closed) := by
  have hseek : ∀ n : ℕ, pySeek s n = (.error .closedFile, s) := by
    intro n
    simp [pySeek, hc]
  have hgi : getItem r s key = (.error .closedFile, r', s) := by
    unfold getItem
    rw [if_neg (not_lt.mpr h0), hd]
    simp only [hseek]
    rw [if_pos h1]
  have hit : iterate r s = (.error .closedFile, r, s) := by
    unfold iterate
    rw [hseek HEADER_SIZE]
  refine ⟨by rw [hgi], by rw [hit], hd, rfl, ?_⟩
  intro t n
  constructor
  · unfold pySeek
    split <;> rfl
  · unfold pyRead
    split <;> rfl

theorem c9_closed_behavior_witness :
    sClosed.closed = true ∧ daysCached r31 = (.ok 31, r31c) ∧
      (0 : ℤ) ≤ 0 ∧ (0 : ℤ) < 31 ∧
      (getItem r31 sClosed 0).1 = .error .closedFile ∧
      (iterate r31 sClosed).1 = .error .closedFile := by
  have h := c9_closed_behavior r31 r31c sClosed 0 31 rfl daysCached_r31
    (by norm_num) (by norm_num)
  exact ⟨rfl, daysCached_r31, by norm_num, by norm_num, h.1, h.2.1⟩

/-! ### C10 — frame effect of a successful get -/

/-- C10: a successful `get(index)` leaves the reader's header mapping
unchanged and its day count stable (a further `days` access returns the
same count and changes nothing), leaves the stream contents and open
state unchanged, leaves the stream position at exactly
`1440 + (index+1)·259200` — the first byte past the record just read —
and an immediately following unseeked `read_day` decodes day record
`index+1`. -/
theorem c10_get_frame (r r' : Reader) (s : FState) (key d : ℤ)
    (hc : s.closed = false) (hd : daysCached r = (.ok d, r'))
    (h0 : 0 ≤ key) (h1 : key < d)
    (hl : HEADER_SIZE + DAY_SIZE * (key.toNat + 2) ≤ s.data.length) :
    ∃ s', getItem r s key = (.ok (recordWords s.data key.toNat), r', s') ∧
      r'.headers = r.headers ∧
      daysCached r' = (.ok d, r') ∧
      s'.data = s.data ∧ s'.closed = false ∧
      s'.pos = HEADER_SIZE + DAY_SIZE * (key.toNat + 1) ∧
      (read_day s').1 = .ok (recordWords s.data (key.toNat + 1)) := by
  have hl1 : HEADER_SIZE + DAY_SIZE * (key.toNat + 1) ≤ s.data.length := by
    simp only [HEADER_SIZE, DAY_SIZE, MEASUREMENTS_PER_DAY, REAL_SIZE] at hl ⊢
    omega
  have hget := getItem_ok r s key d r' hc hd h0 h1 hl1
  have hpos : HEADER_SIZE + DAY_SIZE * key.toNat + DAY_SIZE
      = HEADER_SIZE + DAY_SIZE * (key.toNat + 1) := by ring
  have hheads : r'.headers = r.headers := by
    have := daysCached_headers r
    rw [hd] at this
    exact this
  refine ⟨_, hget, hheads, daysCached_idem r d r' hd, rfl, hc, hpos, ?_⟩
  rw [read_day_ok
    { s with pos := HEADER_SIZE + DAY_SIZE * key.toNat + DAY_SIZE,
             trace := s.trace ++
               [.seek (HEADER_SIZE + DAY_SIZE * key.toNat), .read DAY_SIZE] }
    hc
    (by
      show HEADER_SIZE + DAY_SIZE * key.toNat + DAY_SIZE + DAY_SIZE ≤ s.data.length
      simp only [HEADER_SIZE, DAY_SIZE, MEASUREMENTS_PER_DAY, REAL_SIZE] at hl ⊢
      omega)]
  unfold recordWords
  simp only [hpos]

theorem c10_get_frame_witness :
    sOpen.closed = false ∧ daysCached r31 = (.ok 31, r31c) ∧
      (0 : ℤ) ≤ 0 ∧ (0 : ℤ) < 31 ∧
      HEADER_SIZE + DAY_SIZE * ((0 : ℤ).toNat + 2) ≤ sOpen.data.length ∧
      (∃ s', getItem r31 sOpen 0 = (.ok (recordWords sOpen.data (0 : ℤ).toNat), r31c, s') ∧
        r31c.headers = r31.headers ∧
        daysCached r31c = (.ok 31, r31c) ∧
        s'.data = sOpen.data ∧ s'.closed = false ∧
        s'.pos = HEADER_SIZE + DAY_SIZE * ((0 : ℤ).toNat + 1) ∧
        (read_day s').1 = .ok (recordWords sOpen.data ((0 : ℤ).toNat + 1))) := by
  have hl : HEADER_SIZE + DAY_SIZE * ((0 : ℤ).toNat + 2) ≤ sOpen.data.length := by
    show HEADER_SIZE + DAY_SIZE * ((0 : ℤ).toNat + 2) ≤ sData.length
    rw [sData_length]
    norm_num [HEADER_SIZE, DAY_SIZE, MEASUREMENTS_PER_DAY, REAL_SIZE]
  exact ⟨rfl, daysCached_r31, by norm_num, by norm_num, hl,
    c10_get_frame r31 r31c sOpen 0 31 rfl daysCached_r31 (by norm_num) (by norm_num) hl⟩

end Gpcp

namespace Gpcp

theorem iterLoop_ok (n : ℕ) : ∀ s : FState, s.closed = false →
    s.pos + DAY_SIZE * n ≤ s.data.length →
    iterLoop n s =
      (.ok ((List.range n).map (fun i =>
          toWords (((s.data.drop (s.pos + DAY_SIZE * i)).take DAY_SIZE).map Char.toNat))),
        { s with pos := s.pos + DAY_SIZE * n,
                 trace := s.trace ++ List.replicate n (.read DAY_SIZE) }) := by
  induction n with
  | zero =>
      intro s hc hl
      unfold iterLoop
      simp
  | succ n ih =>
      intro s hc hl
      have hstep : s.pos + DAY_SIZE ≤ s.data.length := by
        simp only [DAY_SIZE, MEASUREMENTS_PER_DAY, REAL_SIZE] at hl ⊢
        omega
      have hrd := read_day_ok s hc hstep
      have hih := ih { s with pos := s.pos + DAY_SIZE, trace := s.trace ++ [.read DAY_SIZE] }
        hc
        (by
          show s.pos + DAY_SIZE + DAY_SIZE * n ≤ s.data.length
          simp only [DAY_SIZE, MEASUREMENTS_PER_DAY, REAL_SIZE] at hl ⊢
          omega)
      dsimp only at hih
      unfold iterLoop
      rw [hrd]
      simp only [hih]
      rw [List.range_succ_eq_map, List.map_cons, List.map_map]
      have harith : ∀ i : ℕ, s.pos + DAY_SIZE * (i + 1) = s.pos + DAY_SIZE + DAY_SIZE * i :=
        fun i => by ring
      rw [Prod.mk.injEq]
      refine ⟨?_, ?_⟩
      · simp [Function.comp, harith]
      · simp [FState.mk.injEq, harith n, List.replicate_succ, List.append_assoc]

end Gpcp

namespace Gpcp

theorem iterate_ok (r r' : Reader) (s : FState) (d : ℤ)
    (hc : s.closed = false) (hd : daysCached r = (.ok d, r'))
    (hl : HEADER_SIZE + DAY_SIZE * d.toNat ≤ s.data.length) :
    iterate r s =
      (.ok ((List.range d.toNat).map (recordWords s.data)), r',
        { s with pos := HEADER_SIZE + DAY_SIZE * d.toNat,
                 trace := s.trace ++
                   (.seek HEADER_SIZE :: List.replicate d.toNat (.read DAY_SIZE)) }) := by
  have hseek := pySeek_ok s HEADER_SIZE hc
  have hloop := iterLoop_ok d.toNat
    { s with pos := HEADER_SIZE, trace := s.trace ++ [.seek HEADER_SIZE] }
    hc
    (by
      show HEADER_SIZE + DAY_SIZE * d.toNat ≤ s.data.length
      exact hl)
  dsimp only at hloop
  unfold iterate
  rw [hseek, hd]
  simp only [hloop]
  simp [recordWords, List.append_assoc]

/-- C3: on a well-formed open stream, `iterate()` succeeds with the
day-record sequence `[record 0, …, record (d−1)]`; this sequence is
element-wise equal to `get(0), …, get(d−1)`; the events of the first
iteration are one seek to the start of the data region followed by `d`
consecutive record reads; and calling `iterate()` a second time on the
same reader first re-seeks to the start of the data region and yields
the identical sequence of day grids. -/
theorem c3_iterate_equals_gets (r r' : Reader) (s : FState) (d : ℤ)
    (hc : s.closed = false) (hd : daysCached r = (.ok d, r'))
    (hl : HEADER_SIZE + DAY_SIZE * d.toNat ≤ s.data.length) :
    ∃ s₁ s₂,
      iterate r s = (.ok ((List.range d.toNat).map (recordWords s.data)), r', s₁) ∧
      (∀ i : ℕ, i < d.toNat → (getItem r s (i : ℤ)).1 = .ok (recordWords s.data i)) ∧
      s₁.trace = s.trace ++ (.seek HEADER_SIZE :: List.replicate d.toNat (.read DAY_SIZE)) ∧
      iterate r' s₁ = (.ok ((List.range d.toNat).map (recordWords s.data)), r', s₂) ∧
      s₂.trace = s₁.trace ++ (.seek HEADER_SIZE :: List.replicate d.toNat (.read DAY_SIZE)) := by
  have h1 := iterate_ok r r' s d hc hd hl
  have h2 := iterate_ok r' r'
    { s with pos := HEADER_SIZE + DAY_SIZE * d.toNat,
             trace := s.trace ++ (.seek HEADER_SIZE :: List.replicate d.toNat (.read DAY_SIZE)) }
    d hc (daysCached_idem r d r' hd)
    (by
      show HEADER_SIZE + DAY_SIZE * d.toNat ≤ s.data.length
      exact hl)
  dsimp only at h2
  refine ⟨_, _, h1, ?_, rfl, h2, rfl⟩
  intro i hi
  have hkey : ((i : ℤ)).toNat = i := Int.toNat_natCast i
  have hil : HEADER_SIZE + DAY_SIZE * (((i : ℤ)).toNat + 1) ≤ s.data.length := by
    rw [hkey]
    simp only [HEADER_SIZE, DAY_SIZE, MEASUREMENTS_PER_DAY, REAL_SIZE] at hl ⊢
    omega
  have hlt : (i : ℤ) < d := by omega
  rw [getItem_ok r s (i : ℤ) d r' hc hd (Int.natCast_nonneg i) hlt hil, hkey]

end Gpcp

namespace Gpcp

/-- A reader whose header declares two days (`days=1-2`), matching the
two records of `sData`. -/
def r2 : Reader := ⟨[("days", "1-2"), ("year", "1997"), ("month", "01")], none⟩

/-- `r2` after its day count has been cached. -/
def r2c : Reader := ⟨[("days", "1-2"), ("year", "1997"), ("month", "01")], some 2⟩

theorem daysCached_r2 : daysCached r2 = (.ok 2, r2c) := by decide

theorem c3_iterate_equals_gets_witness :
    sOpen.closed = false ∧ daysCached r2 = (.ok 2, r2c) ∧
      HEADER_SIZE + DAY_SIZE * (2 : ℤ).toNat ≤ sOpen.data.length ∧
      (∃ s₁ s₂,
        iterate r2 sOpen =
          (.ok ((List.range (2 : ℤ).toNat).map (recordWords sOpen.data)), r2c, s₁) ∧
        (∀ i : ℕ, i < (2 : ℤ).toNat →
          (getItem r2 sOpen (i : ℤ)).1 = .ok (recordWords sOpen.data i)) ∧
        s₁.trace = sOpen.trace ++
          (.seek HEADER_SIZE :: List.replicate (2 : ℤ).toNat (.read DAY_SIZE)) ∧
        iterate r2c s₁ =
          (.ok ((List.range (2 : ℤ).toNat).map (recordWords sOpen.data)), r2c, s₂) ∧
        s₂.trace = s₁.trace ++
          (.seek HEADER_SIZE :: List.replicate (2 : ℤ).toNat (.read DAY_SIZE))) := by
  have hl : HEADER_SIZE + DAY_SIZE * (2 : ℤ).toNat ≤ sOpen.data.length := by
    show HEADER_SIZE + DAY_SIZE * (2 : ℤ).toNat ≤ sData.length
    rw [sData_length]
    decide
  exact ⟨rfl, daysCached_r2, hl,
    c3_iterate_equals_gets r2 r2c sOpen 2 rfl daysCached_r2 hl⟩

end Gpcp

namespace Gpcp

/-! ### C7 — header parsing -/

theorem matchAt_none_of_no_eq (cs : List Char) (h : '=' ∉ cs) : matchAt cs = none := by
  unfold matchAt
  by_cases hw : (cs.takeWhile isWordChar).isEmpty
  · rw [if_pos hw]
  · rw [if_neg hw]
    cases hr : cs.dropWhile isWordChar with
    | nil => rfl
    | cons c r₂ =>
        have hcne : c ≠ '=' := by
          intro hc
          apply h
          have hm : c ∈ cs.dropWhile isWordChar := by
            rw [hr]
            exact List.mem_cons_self c r₂
          have hmem := (List.dropWhile_sublist (l := cs) (p := isWordChar)).subset hm
          rw [hc] at hmem
          exact hmem
        dsimp only
        rw [if_neg hcne]

theorem findAllAux_nil_of_no_eq : ∀ (fuel : ℕ) (cs : List Char), '=' ∉ cs →
    findAllAux fuel cs = []
  | 0, _, _ => rfl
  | _ + 1, [], _ => rfl
  | fuel + 1, c :: cs', h => by
      unfold findAllAux
      rw [matchAt_none_of_no_eq _ h]
      exact findAllAux_nil_of_no_eq fuel cs' (fun hm => h (List.mem_cons_of_mem c hm))

theorem findAll_nil_of_no_eq (cs : List Char) (h : '=' ∉ cs) : findAll cs = [] :=
  findAllAux_nil_of_no_eq (cs.length + 1) cs h

theorem no_eq_rstrip (l : List Char) (h : '=' ∉ l) : '=' ∉ rstrip l := by
  intro hm
  apply h
  unfold rstrip at hm
  rw [List.mem_reverse] at hm
  have hmem := (List.dropWhile_sublist (l := l.reverse) (p := isPySpace)).subset hm
  rw [List.mem_reverse] at hmem
  exact hmem

/-- C7: on an open stream, header parsing seeks to 0 and requests
exactly the first 1,440 bytes (the recorded trace is one seek to 0 and
one read of `HEADER_SIZE`; the result depends only on those bytes); if
the extracted pair list is empty it fails with the format error
(`IOError`) before any day record is read, and in particular a header
block containing no `=` character always fails that way; when at least
one pair is found, it returns the ordered pair list. -/
theorem c7_header_parsing (s : FState) (hc : s.closed = false) :
    read_onedd_headers s =
      (if (findAll (rstrip (s.data.take HEADER_SIZE))).isEmpty then .error .io
       else .ok ((findAll (rstrip (s.data.take HEADER_SIZE))).map
         (fun p => (String.mk p.1, String.mk p.2))),
        { s with pos := (s.data.take HEADER_SIZE).length,
                 trace := s.trace ++ [.seek 0, .read HEADER_SIZE] }) ∧
      ('=' ∉ s.data.take HEADER_SIZE → (read_onedd_headers s).1 = .error .io) ∧
      (¬ (findAll (rstrip (s.data.take HEADER_SIZE))).isEmpty →
        (read_onedd_headers s).1 = .ok ((findAll (rstrip (s.data.take HEADER_SIZE))).map
          (fun p => (String.mk p.1, String.mk p.2)))) := by
  have hseek := pySeek_ok s 0 hc
  have hchar : read_onedd_headers s =
      (if (findAll (rstrip (s.data.take HEADER_SIZE))).isEmpty then .error .io
       else .ok ((findAll (rstrip (s.data.take HEADER_SIZE))).map
         (fun p => (String.mk p.1, String.mk p.2))),
        { s with pos := (s.data.take HEADER_SIZE).length,
                 trace := s.trace ++ [.seek 0, .read HEADER_SIZE] }) := by
    unfold read_onedd_headers
    rw [hseek]
    dsimp only
    unfold pyRead
    rw [if_neg (by rw [hc]; exact Bool.false_ne_true)]
    by_cases hP : (findAll (rstrip (s.data.take HEADER_SIZE))).isEmpty
    · simp [hP, List.length_take, List.append_assoc]
    · simp [hP, List.length_take, List.append_assoc]
  refine ⟨hchar, ?_, ?_⟩
  · intro hne
    have hempty : findAll (rstrip (s.data.take HEADER_SIZE)) = [] :=
      findAll_nil_of_no_eq _ (no_eq_rstrip _ hne)
    rw [hchar, hempty]
    rfl
  · intro hnonempty
    rw [hchar]
    simp only [if_neg hnonempty]

/-- A stream whose contents have no `=` character at all. -/
def sNoEq : FState := ⟨"this stream has no key value pairs".toList, 0, false, []⟩

theorem c7_header_parsing_witness :
    sNoEq.closed = false ∧ '=' ∉ sNoEq.data.take HEADER_SIZE ∧
      (read_onedd_headers sNoEq).1 = .error .io := by
  have hne : '=' ∉ sNoEq.data.take HEADER_SIZE := by decide
  exact ⟨rfl, hne, (c7_header_parsing sNoEq rfl).2.1 hne⟩

end Gpcp

namespace Gpcp

/-! ### C8 — dates on day grids (`src/onedd.py`) -/

theorem getItemDay_eval (r r' : Reader) (s : FState) (key d y m : ℤ)
    (hc : s.closed = false) (hd : daysCached r = (.ok d, r'))
    (hy : yearOf r.headers = .ok y) (hm : monthOf r.headers = .ok m)
    (h0 : 0 ≤ key) (h1 : key < d)
    (hl : HEADER_SIZE + DAY_SIZE * (key.toNat + 1) ≤ s.data.length) :
    (getItemDay r s key).1 =
      (pyDatetime y m (key + 1)).map
        (fun dt => (⟨key + 1, dt, recordWords s.data key.toNat⟩ : ODay)) := by
  have hseek := pySeek_ok s (HEADER_SIZE + DAY_SIZE * key.toNat) hc
  have hread := read_day_ok
    { s with pos := HEADER_SIZE + DAY_SIZE * key.toNat,
             trace := s.trace ++ [.seek (HEADER_SIZE + DAY_SIZE * key.toNat)] }
    hc
    (by
      show HEADER_SIZE + DAY_SIZE * key.toNat + DAY_SIZE ≤ s.data.length
      simp only [HEADER_SIZE, DAY_SIZE, MEASUREMENTS_PER_DAY, REAL_SIZE] at hl ⊢
      omega)
  have hheads : r'.headers = r.headers := by
    have := daysCached_headers r
    rw [hd] at this
    exact this
  have hy' : yearOf r'.headers = .ok y := by rw [hheads]; exact hy
  have hm' : monthOf r'.headers = .ok m := by rw [hheads]; exact hm
  unfold getItemDay
  rw [if_neg (not_lt.mpr h0), hd]
  simp only [hseek, hread]
  rw [if_pos h1]
  simp only [hy', hm']
  cases hdt : pyDatetime y m (key + 1) with
  | error e => simp [hdt, recordWords, Except.map]
  | ok dt => simp [hdt, recordWords, Except.map]

/-- C8: for every valid index on a well-formed open stream whose header
yields year `y` and month `m`, the day object returned by `get(index)`
carries the date `(y, m, index+1)` whenever that is a valid calendar
date, and when `index+1` is not a valid day of that calendar month the
call surfaces the date-construction `ValueError` (a format error)
instead of silently truncating. -/
theorem c8_day_dates (r r' : Reader) (s : FState) (key d y m : ℤ)
    (hc : s.closed = false) (hd : daysCached r = (.ok d, r'))
    (hy : yearOf r.headers = .ok y) (hm : monthOf r.headers = .ok m)
    (h0 : 0 ≤ key) (h1 : key < d)
    (hl : HEADER_SIZE + DAY_SIZE * (key.toNat + 1) ≤ s.data.length) :
    (datetimeValidB y m (key + 1) = true →
      (getItemDay r s key).1 =
        .ok ⟨key + 1, (y, m, key + 1), recordWords s.data key.toNat⟩) ∧
    (datetimeValidB y m (key + 1) = false →
      (getItemDay r s key).1 = .error .value) := by
  have heval := getItemDay_eval r r' s key d y m hc hd hy hm h0 h1 hl
  constructor
  · intro hv
    rw [heval]
    unfold pyDatetime
    rw [if_pos hv]
    rfl
  · intro hv
    rw [heval]
    unfold pyDatetime
    rw [if_neg (by simp [hv])]
    rfl

theorem c8_day_dates_witness :
    sOpen.closed = false ∧ daysCached r31 = (.ok 31, r31c) ∧
      yearOf r31.headers = .ok 1997 ∧ monthOf r31.headers = .ok 1 ∧
      (0 : ℤ) ≤ 0 ∧ (0 : ℤ) < 31 ∧
      datetimeValidB 1997 1 (0 + 1) = true ∧
      (getItemDay r31 sOpen 0).1 =
        .ok ⟨0 + 1, (1997, 1, 0 + 1), recordWords sOpen.data (0 : ℤ).toNat⟩ := by
  have hl : HEADER_SIZE + DAY_SIZE * ((0 : ℤ).toNat + 1) ≤ sOpen.data.length := by
    show HEADER_SIZE + DAY_SIZE * ((0 : ℤ).toNat + 1) ≤ sData.length
    rw [sData_length]
    decide
  have h := c8_day_dates r31 r31c sOpen 0 31 1997 1 rfl daysCached_r31
    (by decide) (by decide) (by norm_num) (by norm_num) hl
  exact ⟨rfl, daysCached_r31, by decide, by decide, by norm_num, by norm_num,
    by decide, h.1 (by decide)⟩

end Gpcp
